import Mathlib

/-!
Verification of the food-insight web application: the analysis bridge
(`POST` route handler) and the capture/upload client component.

The bridge receives `{ "image": <data URI> }`, calls an external multimodal
model, extracts a JSON candidate from the model's free-form reply with the
regular expression

  /```json\s*([\s\S]+?)\s*```|(\x7b[\s\S]+\x7d)/

and parses it with `JSON.parse`. We embed the route handler, the regex's
backtracking semantics specialised to this pattern, a JSON parser mirroring
`JSON.parse`, and the client-side handlers (`handleImageUpload`,
`captureImage`, `handleAnalyze`) as pure Lean functions.
-/

set_option autoImplicit false
set_option maxRecDepth 100000

namespace FoodInsight

/-- The backtick character, `Char.ofNat 96`. -/
def btick : Char := Char.ofNat 96

/-- The opening brace character. -/
def lbrace : Char := Char.ofNat 123

/-- The closing brace character. -/
def rbrace : Char := Char.ofNat 125

/-- JavaScript regex `\s` (the characters relevant to ASCII model output):
space, tab, line feed, carriage return, vertical tab, form feed. -/
def isSpaceChar (c : Char) : Bool :=
  c = ' ' || c = '\t' || c = '\n' || c = '\r' || c = Char.ofNat 11 || c = Char.ofNat 12

/-- Literal prefix test on character lists. -/
def startsWithChars : List Char → List Char → Bool
  | [], _ => true
  | _ :: _, [] => false
  | p :: ps, c :: cs => p = c && startsWithChars ps cs

/-- Drop an exact literal prefix, or fail. -/
def dropPrefixChars : List Char → List Char → Option (List Char)
  | [], s => some s
  | _ :: _, [] => none
  | p :: ps, c :: cs => if p = c then dropPrefixChars ps cs else none

/-- The literal `` ```json `` that opens a fenced block in branch 1 of the regex. -/
def fenceOpenTag : List Char := [btick, btick, btick, 'j', 's', 'o', 'n']

/-- The literal `` ``` `` that closes a fenced block. -/
def fenceTicks : List Char := [btick, btick, btick]

/-- After the lazy group, the regex requires `\s*` then `` ``` ``. Since a
backtick is not whitespace, the only way the greedy `\s*` can succeed is to
consume the entire whitespace run, so the closing test is: skip the
whitespace prefix and require three backticks. -/
def closesFence (l : List Char) : Bool :=
  startsWithChars fenceTicks (l.dropWhile isSpaceChar)

/-- The lazy group `([\s\S]+?)`: try group lengths 1, 2, … and return the
shortest content whose remainder passes `closesFence`. `acc` holds the
content consumed so far (in order). -/
def tryGroupAux : List Char → List Char → Option (List Char)
  | _, [] => none
  | acc, c :: cs =>
    if closesFence cs then some (acc ++ [c]) else tryGroupAux (acc ++ [c]) cs

/-- Shortest non-empty group content closed by `\s*` ++ `` ``` ``. -/
def tryGroup (r : List Char) : Option (List Char) :=
  tryGroupAux [] r

/-- The greedy `\s*` right after `` ```json ``: try consuming `n` whitespace
characters first, backtracking downwards (the regex engine prefers the
longest `\s*` match first). -/
def branch1Loop (rest : List Char) : Nat → Option (List Char)
  | 0 => tryGroup rest
  | n + 1 =>
    match tryGroup (rest.drop (n + 1)) with
    | some g => some g
    | none => branch1Loop rest n

/-- Branch 1 of the regex, `` ```json\s*([\s\S]+?)\s*``` ``, attempted at the
head of `s`; returns group 1 on success. -/
def branch1At (s : List Char) : Option (List Char) :=
  match dropPrefixChars fenceOpenTag s with
  | none => none
  | some rest => branch1Loop rest (rest.takeWhile isSpaceChar).length

/-- Index of the last closing brace in a character list, if any. -/
def lastCloseIdx : List Char → Option Nat
  | [] => none
  | c :: rest =>
    match lastCloseIdx rest with
    | some k => some (k + 1)
    | none => if c = rbrace then some 0 else none

/-- Branch 2 of the regex, `(\x7b[\s\S]+\x7d)`, attempted at the head of `s`:
an opening brace, then a greedy run of at least one character, then a closing
brace — i.e. everything from this opening brace to the last closing brace of
the text, provided at least one character lies between them. The group
includes the braces. -/
def branch2At : List Char → Option (List Char)
  | [] => none
  | c :: rest =>
    if c = lbrace then
      match lastCloseIdx rest with
      | some k => if 1 ≤ k then some (lbrace :: rest.take (k + 1)) else none
      | none => none
    else none

/-- Leftmost-first scan of the whole regex: at each start position try
branch 1 then branch 2; the first success wins and yields `match[1] || match[2]`. -/
def scanMatch : List Char → Option (List Char)
  | [] => none
  | c :: rest =>
    match branch1At (c :: rest) with
    | some g => some g
    | none =>
      match branch2At (c :: rest) with
      | some g => some g
      | none => scanMatch rest

/-- Whether branch 1 (a language-tagged fenced block) matches anywhere in the
text — "the text contains a fenced JSON block". -/
def hasFenceList : List Char → Bool
  | [] => false
  | c :: rest => (branch1At (c :: rest)).isSome || hasFenceList rest

/-- `let jsonString = analysisText; const match = analysisText.match(re);
if (match) jsonString = match[1] || match[2];` -/
def extractJsonList (l : List Char) : List Char :=
  match scanMatch l with
  | some g => g
  | none => l

/-- String-level wrapper of the extraction step of the route handler. -/
def extractJsonString (s : String) : String :=
  String.mk (extractJsonList s.toList)

/-- Whether the text contains a fenced JSON block, at string level. -/
def hasFenceStr (s : String) : Bool :=
  hasFenceList s.toList

/-! ### JSON values and a parser mirroring `JSON.parse` -/

/-- A JSON value. Numbers are kept as their source lexeme, which is enough to
state every claim (none depends on numeric arithmetic). -/
inductive Json where
  | null : Json
  | bool : Bool → Json
  | num : String → Json
  | str : String → Json
  | arr : List Json → Json
  | obj : List (String × Json) → Json
deriving Repr

/-- JSON whitespace (`JSON.parse` skips exactly these). -/
def jsonWs (c : Char) : Bool :=
  c = ' ' || c = '\t' || c = '\n' || c = '\r'

/-- The double quote character. -/
def dquote : Char := Char.ofNat 34

/-- The backslash character. -/
def bslash : Char := Char.ofNat 92

/-- Hex digit value, if any. -/
def hexVal (c : Char) : Option Nat :=
  if '0' ≤ c && c ≤ '9' then some (c.toNat - 48)
  else if 'a' ≤ c && c ≤ 'f' then some (c.toNat - 87)
  else if 'A' ≤ c && c ≤ 'F' then some (c.toNat - 55)
  else none

/-- Decode one escape sequence (the character after the backslash has been
split off as `e`); returns the decoded character and the remaining input. -/
def escChar (e : Char) (rest : List Char) : Option (Char × List Char) :=
  if e = dquote then some (dquote, rest)
  else if e = bslash then some (bslash, rest)
  else if e = '/' then some ('/', rest)
  else if e = 'b' then some (Char.ofNat 8, rest)
  else if e = 'f' then some (Char.ofNat 12, rest)
  else if e = 'n' then some ('\n', rest)
  else if e = 'r' then some ('\r', rest)
  else if e = 't' then some ('\t', rest)
  else if e = 'u' then
    match rest with
    | h1 :: h2 :: h3 :: h4 :: rest4 =>
      match hexVal h1, hexVal h2, hexVal h3, hexVal h4 with
      | some a, some b, some c, some d =>
        some (Char.ofNat (((a * 16 + b) * 16 + c) * 16 + d), rest4)
      | _, _, _, _ => none
    | _ => none
  else none

/-- Parse the characters of a string literal after the opening quote; returns
the decoded characters and the input after the closing quote. -/
def parseStrChars : Nat → List Char → Option (List Char × List Char)
  | 0, _ => none
  | _, [] => none
  | fuel + 1, c :: rest =>
    if c = dquote then some ([], rest)
    else if c = bslash then
      match rest with
      | [] => none
      | e :: rest2 =>
        match escChar e rest2 with
        | none => none
        | some (ch, rest3) =>
          match parseStrChars fuel rest3 with
          | none => none
          | some (cs, r) => some (ch :: cs, r)
    else if c.toNat < 32 then none
    else
      match parseStrChars fuel rest with
      | none => none
      | some (cs, r) => some (c :: cs, r)

/-- Optional exponent part of a number lexeme: `([eE][+-]?[0-9]+)?`. -/
def parseExpPart (pre : List Char) (l : List Char) : Option (List Char × List Char) :=
  match l with
  | e :: r =>
    if e = 'e' || e = 'E' then
      let (sgn, r1) :=
        match r with
        | s :: r0 => if s = '+' || s = '-' then ([s], r0) else ([], s :: r0)
        | [] => (([] : List Char), ([] : List Char))
      match r1.takeWhile Char.isDigit with
      | [] => none
      | ds => some (pre ++ e :: (sgn ++ ds), r1.dropWhile Char.isDigit)
    else some (pre, l)
  | [] => some (pre, l)

/-- Optional fraction part of a number lexeme, then the exponent part. -/
def parseFracPart (pre : List Char) (l : List Char) : Option (List Char × List Char) :=
  match l with
  | '.' :: r =>
    match r.takeWhile Char.isDigit with
    | [] => none
    | ds => parseExpPart (pre ++ '.' :: ds) (r.dropWhile Char.isDigit)
  | _ => parseExpPart pre l

/-- Parse a number lexeme: `-? (0 | [1-9][0-9]*) (. [0-9]+)? ([eE][+-]?[0-9]+)?`.
Returns the lexeme and the remaining input. -/
def parseNumLexeme (l : List Char) : Option (List Char × List Char) :=
  let (sign, l1) :=
    match l with
    | '-' :: r => ([('-' : Char)], r)
    | l0 => (([] : List Char), l0)
  match l1 with
  | [] => none
  | c :: r =>
    if c = '0' then
      parseFracPart (sign ++ [c]) r
    else if c.isDigit then
      parseFracPart (sign ++ c :: r.takeWhile Char.isDigit) (r.dropWhile Char.isDigit)
    else none

mutual

/-- Parse one JSON value (after skipping leading whitespace). -/
def parseVal : Nat → List Char → Option (Json × List Char)
  | 0, _ => none
  | fuel + 1, l =>
    match l.dropWhile jsonWs with
    | [] => none
    | c :: rest =>
      if c = 'n' then
        match dropPrefixChars ['u', 'l', 'l'] rest with
        | some r => some (Json.null, r)
        | none => none
      else if c = 't' then
        match dropPrefixChars ['r', 'u', 'e'] rest with
        | some r => some (Json.bool true, r)
        | none => none
      else if c = 'f' then
        match dropPrefixChars ['a', 'l', 's', 'e'] rest with
        | some r => some (Json.bool false, r)
        | none => none
      else if c = dquote then
        match parseStrChars (rest.length + 1) rest with
        | some (cs, r) => some (Json.str (String.mk cs), r)
        | none => none
      else if c = '-' || c.isDigit then
        match parseNumLexeme (c :: rest) with
        | some (lex, r) => some (Json.num (String.mk lex), r)
        | none => none
      else if c = '[' then
        match rest.dropWhile jsonWs with
        | ']' :: r => some (Json.arr [], r)
        | r => match parseArrElems fuel r with
               | some (es, r2) => some (Json.arr es, r2)
               | none => none
      else if c = lbrace then
        match rest.dropWhile jsonWs with
        | r =>
          if startsWithChars [rbrace] r then
            some (Json.obj [], r.drop 1)
          else
            match parseObjFields fuel r with
            | some (fs, r2) => some (Json.obj fs, r2)
            | none => none
      else none

/-- Parse one or more comma-separated array elements and the closing bracket. -/
def parseArrElems : Nat → List Char → Option (List Json × List Char)
  | 0, _ => none
  | fuel + 1, l =>
    match parseVal fuel l with
    | none => none
    | some (v, r) =>
      match r.dropWhile jsonWs with
      | ',' :: r2 =>
        match parseArrElems fuel r2 with
        | some (es, r3) => some (v :: es, r3)
        | none => none
      | ']' :: r2 => some ([v], r2)
      | _ => none

/-- Parse one or more comma-separated object members and the closing brace.
The input starts at a (whitespace-stripped) member key. -/
def parseObjFields : Nat → List Char → Option (List (String × Json) × List Char)
  | 0, _ => none
  | fuel + 1, l =>
    match l.dropWhile jsonWs with
    | c :: rest =>
      if c = dquote then
        match parseStrChars (rest.length + 1) rest with
        | some (key, r) =>
          match r.dropWhile jsonWs with
          | ':' :: r2 =>
            match parseVal fuel r2 with
            | some (v, r3) =>
              match r3.dropWhile jsonWs with
              | ',' :: r4 =>
                match parseObjFields fuel r4 with
                | some (fs, r5) => some ((String.mk key, v) :: fs, r5)
                | none => none
              | r4 =>
                if startsWithChars [rbrace] r4 then
                  some ([(String.mk key, v)], r4.drop 1)
                else none
            | none => none
          | _ => none
        | none => none
      else none
    | [] => none

end

/-- `JSON.parse`: one value, surrounded only by whitespace. -/
def parseJson (s : String) : Option Json :=
  match parseVal (s.toList.length + 1) s.toList with
  | some (v, rest) =>
    if rest.dropWhile jsonWs = [] then some v else none
  | none => none

/-! ### The analysis bridge: the `POST` route handler -/

/-- The request as the handler sees it after `await request.json()`:
either that call threw (invalid body, carrying the thrown message), or it
produced a body whose destructured `image` field is absent (`none`) or a
string. `!image` in the handler treats both `undefined` and `""` as missing. -/
inductive BridgeRequest where
  | invalidBody : String → BridgeRequest
  | body : Option String → BridgeRequest

/-- The outcome of the one external model call
(`openai.chat.completions.create`): the call threw with a message, or it
returned and `response.choices[0]?.message?.content` is `none`
(absent/null) or a string. -/
inductive ModelCall where
  | failure : String → ModelCall
  | success : Option String → ModelCall

/-- A `NextResponse.json(body, { status })` value. -/
inductive ApiResponse where
  | json : Nat → Json → ApiResponse
deriving Repr

/-- Body `{ "error": "No image provided" }`. -/
def noImageBody : Json :=
  Json.obj [("error", Json.str "No image provided")]

/-- Body `{ "error": "Failed to parse analysis response", "raw": raw }`. -/
def parseFailBody (raw : String) : Json :=
  Json.obj [("error", Json.str "Failed to parse analysis response"), ("raw", Json.str raw)]

/-- Body `{ "error": "Failed to analyze food image", "details": details }`. -/
def analyzeFailBody (details : String) : Json :=
  Json.obj [("error", Json.str "Failed to analyze food image"), ("details", Json.str details)]

/-- The `POST` route handler. `call` describes what the external model call
would do if issued; branches that return before reaching it do not inspect
it, which is how "the external call is not attempted" is expressed. -/
def POST (req : BridgeRequest) (call : ModelCall) : ApiResponse :=
  match req with
  | .invalidBody msg => .json 500 (analyzeFailBody msg)
  | .body image =>
    match image with
    | none => .json 400 noImageBody
    | some img =>
      if img = "" then .json 400 noImageBody
      else
        match call with
        | .failure msg => .json 500 (analyzeFailBody msg)
        | .success none => .json 500 (analyzeFailBody "No analysis received from GPT")
        | .success (some analysisText) =>
          if analysisText = "" then
            .json 500 (analyzeFailBody "No analysis received from GPT")
          else
            let jsonString := extractJsonString analysisText
            match parseJson jsonString with
            | some analysis => .json 200 analysis
            | none => .json 500 (parseFailBody analysisText)

/-! ### The capture/upload client (`Home` component) -/

/-- The `useState` cells of the `Home` component. `analysisResult` is kept as
a raw JSON value: the client stores whatever the bridge returned. -/
structure ClientState where
  selectedImage : Option String
  analysisResult : Option Json
  isAnalyzing : Bool
  error : Option String
  showCamera : Bool

/-- A file offered to the hidden `<input type="file">`: its declared MIME
type, its size in bytes, and the data URI that `FileReader.readAsDataURL`
would produce for it. -/
structure ImageFile where
  type : String
  size : Nat
  dataUri : String

/-- JavaScript `String.prototype.startsWith`, at character level. -/
def strStartsWith (p s : String) : Bool :=
  startsWithChars p.toList s.toList

/-- `handleImageUpload` (including the `reader.onload` continuation of a
successful decode): validates the MIME type and the 5 MiB size bound, and on
success replaces the selected image and clears the previous result and
error. `none` models `event.target.files?.[0]` being absent. -/
def handleImageUpload (file : Option ImageFile) (st : ClientState) : ClientState :=
  match file with
  | none => st
  | some f =>
    if ¬ (strStartsWith "image/" f.type) then
      { st with error := some "Please select an image file" }
    else if f.size > 5 * 1024 * 1024 then
      { st with error := some "Image size should be less than 5MB" }
    else
      { st with selectedImage := some f.dataUri, analysisResult := none, error := none }

/-- `captureImage`: `shot` models `webcamRef.current?.getScreenshot()`
(`none` when the ref is null or the screenshot is null, in which case
nothing happens). -/
def captureImage (shot : Option String) (st : ClientState) : ClientState :=
  match shot with
  | none => st
  | some imageSrc =>
    { st with selectedImage := some imageSrc, analysisResult := none,
              error := none, showCamera := false }

/-- The `disabled={isAnalyzing}` attribute of the Analyze button. -/
def analyzeButtonDisabled (st : ClientState) : Bool :=
  st.isAnalyzing

/-- The synchronous prefix of `handleAnalyze`, up to issuing the fetch:
returns the new state and whether a request was issued. -/
def handleAnalyzeStart (st : ClientState) : ClientState × Bool :=
  match st.selectedImage with
  | none => (st, false)
  | some _ => ({ st with isAnalyzing := true, error := none }, true)

/-- A click on the Analyze button: a disabled button does not invoke its
`onClick` handler. -/
def clickAnalyze (st : ClientState) : ClientState × Bool :=
  if analyzeButtonDisabled st then (st, false) else handleAnalyzeStart st

/-- What the `fetch` to the bridge came back as, as `handleAnalyze` sees it:
a `response.ok` JSON body, a non-ok response with a JSON body carrying an
optional `error` field, a non-ok response without a JSON content type, or
the fetch itself throwing. -/
inductive FetchOutcome where
  | ok : Json → FetchOutcome
  | httpJsonError : Option String → FetchOutcome
  | httpNonJsonError : FetchOutcome
  | networkError : String → FetchOutcome

/-- The continuation of `handleAnalyze` after the fetch settles, including
the `catch` and the `finally` (which always clears `isAnalyzing`). -/
def completeAnalyze (st : ClientState) (o : FetchOutcome) : ClientState :=
  match o with
  | .ok result =>
    { st with analysisResult := some result, isAnalyzing := false }
  | .httpJsonError (some e) =>
    if e = "" then { st with error := some "Failed to analyze image", isAnalyzing := false }
    else { st with error := some e, isAnalyzing := false }
  | .httpJsonError none =>
    { st with error := some "Failed to analyze image", isAnalyzing := false }
  | .httpNonJsonError =>
    { st with error := some "Failed to analyze image", isAnalyzing := false }
  | .networkError msg =>
    { st with error := some msg, isAnalyzing := false }

/-- Modelled from the spec: "locate the first top-level `\x7b...\x7d` span in
the text" — skip to the first opening brace, then take characters up to the
brace-balanced matching close. This follows the spec's words, for comparison
against the extraction the code actually performs. -/
def specSpanAux : Nat → List Char → List Char → Option (List Char)
  | _, _, [] => none
  | depth, acc, c :: rest =>
    if c = lbrace then specSpanAux (depth + 1) (acc ++ [c]) rest
    else if c = rbrace then
      if depth = 1 then some (acc ++ [c])
      else specSpanAux (depth - 1) (acc ++ [c]) rest
    else specSpanAux depth (acc ++ [c]) rest

/-- Modelled from the spec: the first top-level brace span of a text. -/
def specFirstTopLevelSpan (s : String) : Option String :=
  (specSpanAux 0 [] (s.toList.dropWhile (fun c => c ≠ lbrace))).map String.mk

/-! ### Lemmas about the regex scan -/

theorem branch1At_none_of_head (c : Char) (rest : List Char) (h : c ≠ btick) :
    branch1At (c :: rest) = none := by
  simp [branch1At, fenceOpenTag, dropPrefixChars, Ne.symm h]

theorem branch2At_none_of_head (c : Char) (rest : List Char) (h : c ≠ lbrace) :
    branch2At (c :: rest) = none := by
  simp [branch2At, h]

/-- The scan passes over a prefix in which branch 1 cannot start (no
backtick) and branch 2 cannot start (no opening brace). -/
theorem scanMatch_skip (pre X : List Char)
    (hpre : ∀ c ∈ pre, c ≠ btick ∧ c ≠ lbrace) :
    scanMatch (pre ++ X) = scanMatch X := by
  induction pre with
  | nil => rfl
  | cons c pre ih =>
    have h := hpre c (List.mem_cons_self c pre)
    rw [List.cons_append]
    simp only [scanMatch, branch1At_none_of_head _ _ h.1, branch2At_none_of_head _ _ h.2]
    exact ih fun x hx => hpre x (List.mem_cons_of_mem _ hx)

theorem hasFenceList_of_append (pre X : List Char)
    (h : hasFenceList (pre ++ X) = false) : hasFenceList X = false := by
  induction pre with
  | nil => exact h
  | cons c pre ih =>
    rw [List.cons_append] at h
    simp only [hasFenceList, Bool.or_eq_false_iff] at h
    exact ih h.2

/-- When no fenced block occurs anywhere, the scan passes over a prefix
containing no opening brace. -/
theorem scanMatch_skip_nofence (pre X : List Char)
    (hf : hasFenceList (pre ++ X) = false)
    (hpre : ∀ c ∈ pre, c ≠ lbrace) :
    scanMatch (pre ++ X) = scanMatch X := by
  induction pre with
  | nil => rfl
  | cons c pre ih =>
    rw [List.cons_append] at hf ⊢
    simp only [hasFenceList, Bool.or_eq_false_iff] at hf
    have h1 : branch1At (c :: (pre ++ X)) = none := by
      have := hf.1
      simpa [Option.not_isSome_iff_eq_none] using Option.not_isSome_iff_eq_none.mp (by simp [this])
    simp only [scanMatch, h1, branch2At_none_of_head _ _ (hpre c (List.mem_cons_self c pre))]
    exact ih hf.2 fun x hx => hpre x (List.mem_cons_of_mem _ hx)

theorem lastCloseIdx_eq_none (l : List Char) (h : ∀ c ∈ l, c ≠ rbrace) :
    lastCloseIdx l = none := by
  induction l with
  | nil => rfl
  | cons c rest ih =>
    simp [lastCloseIdx, ih fun x hx => h x (List.mem_cons_of_mem _ hx),
      h c (List.mem_cons_self c rest)]

theorem lastCloseIdx_append (mid post : List Char)
    (hpost : ∀ c ∈ post, c ≠ rbrace) :
    lastCloseIdx (mid ++ rbrace :: post) = some mid.length := by
  induction mid with
  | nil => simp [lastCloseIdx, lastCloseIdx_eq_none post hpost]
  | cons c mid ih => simp [lastCloseIdx, ih]

/-- Branch 2 is greedy: at an opening brace, the group runs to the last
closing brace of the whole remaining text. -/
theorem branch2At_greedy (mid post : List Char) (hmid : mid ≠ [])
    (hpost : ∀ c ∈ post, c ≠ rbrace) :
    branch2At (lbrace :: (mid ++ rbrace :: post)) = some (lbrace :: (mid ++ [rbrace])) := by
  have h1 : 1 ≤ mid.length := by
    cases mid with
    | nil => exact absurd rfl hmid
    | cons a l => simp
  have htake : (mid ++ rbrace :: post).take (mid.length + 1) = mid ++ [rbrace] := by
    have := @List.take_append Char mid (rbrace :: post) 1
    simpa using this
  simp [branch2At, lastCloseIdx_append mid post hpost, h1, htake]

/-- One-step unfolding of `tryGroupAux` on a cons. -/
theorem tryGroupAux_cons (acc : List Char) (c : Char) (cs : List Char) :
    tryGroupAux acc (c :: cs) =
      if closesFence cs then some (acc ++ [c]) else tryGroupAux (acc ++ [c]) cs := by
  simp only [tryGroupAux]

/-- One-step unfolding of `scanMatch` on a cons. -/
theorem scanMatch_cons (c : Char) (rest : List Char) :
    scanMatch (c :: rest) =
      match branch1At (c :: rest) with
      | some g => some g
      | none =>
        match branch2At (c :: rest) with
        | some g => some g
        | none => scanMatch rest := by
  simp only [scanMatch]

/-- A whitespace run followed by the closing fence closes the lazy group. -/
theorem closesFence_ws (w2 Y : List Char) (hw2 : ∀ c ∈ w2, isSpaceChar c = true) :
    closesFence (w2 ++ (fenceTicks ++ Y)) = true := by
  induction w2 with
  | nil =>
    simp [closesFence, fenceTicks, List.dropWhile_cons, startsWithChars,
      (by decide : isSpaceChar btick = false)]
  | cons c w2 ih =>
    have hc := hw2 c (List.mem_cons_self c w2)
    have ih' := ih fun x hx => hw2 x (List.mem_cons_of_mem _ hx)
    simp only [closesFence, List.cons_append, List.dropWhile_cons, hc, if_true] at ih' ⊢
    exact ih'

/-- A non-empty remainder of the group content, containing no backtick and
ending in a non-whitespace character, cannot close the fence. -/
theorem closesFence_append_false (X Y : List Char) (hne : X ≠ [])
    (hb : ∀ c ∈ X, c ≠ btick)
    (hlast : ∀ d, X.getLast? = some d → isSpaceChar d = false) :
    closesFence (X ++ Y) = false := by
  induction X with
  | nil => exact absurd rfl hne
  | cons x X ih =>
    cases X with
    | nil =>
      have hx : isSpaceChar x = false := hlast x rfl
      have hxb : x ≠ btick := hb x (List.mem_cons_self x [])
      simp [closesFence, List.dropWhile_cons, hx, fenceTicks, startsWithChars, Ne.symm hxb]
    | cons y X' =>
      rw [List.cons_append]
      by_cases hx : isSpaceChar x = true
      · simp only [closesFence, List.dropWhile_cons, hx, if_true]
        exact ih (by simp) (fun c hc => hb c (List.mem_cons_of_mem _ hc))
          (fun d hd => hlast d (by rwa [List.getLast?_cons_cons]))
      · have hxb : x ≠ btick := hb x (List.mem_cons_self x (y :: X'))
        simp [closesFence, List.dropWhile_cons, hx, fenceTicks, startsWithChars, Ne.symm hxb]

/-- The lazy group stops exactly at the end of the content `C`. -/
theorem tryGroupAux_fence (w2 Y : List Char) (hw2 : ∀ c ∈ w2, isSpaceChar c = true) :
    ∀ (C acc : List Char), C ≠ [] →
    (∀ c ∈ C, c ≠ btick) →
    (∀ d, C.getLast? = some d → isSpaceChar d = false) →
    tryGroupAux acc (C ++ (w2 ++ (fenceTicks ++ Y))) = some (acc ++ C)
  | [], _, hne, _, _ => absurd rfl hne
  | [c], acc, _, _, _ => by
    rw [List.cons_append, List.nil_append, tryGroupAux_cons, closesFence_ws w2 Y hw2, if_pos rfl]
  | c :: c2 :: C', acc, _, hb, hlast => by
    have hclose : closesFence ((c2 :: C') ++ (w2 ++ (fenceTicks ++ Y))) = false :=
      closesFence_append_false (c2 :: C') _ (by simp)
        (fun x hx => hb x (List.mem_cons_of_mem _ hx))
        (fun d hd => hlast d (by rwa [List.getLast?_cons_cons]))
    have hrec := tryGroupAux_fence w2 Y hw2 (c2 :: C') (acc ++ [c]) (by simp)
      (fun x hx => hb x (List.mem_cons_of_mem _ hx))
      (fun d hd => hlast d (by rwa [List.getLast?_cons_cons]))
    rw [List.cons_append, tryGroupAux_cons, hclose]
    simp only [Bool.false_eq_true, if_false]
    rw [hrec, List.append_assoc]
    rfl

/-- The greedy `\s*` loop finds the content `C` on its first attempt. -/
theorem branch1Loop_fence (w1 C w2 Y : List Char)
    (hw2 : ∀ c ∈ w2, isSpaceChar c = true)
    (hC : C ≠ [])
    (hCb : ∀ c ∈ C, c ≠ btick)
    (hClast : ∀ d, C.getLast? = some d → isSpaceChar d = false) :
    branch1Loop (w1 ++ (C ++ (w2 ++ (fenceTicks ++ Y)))) w1.length = some C := by
  have hgroup := tryGroupAux_fence w2 Y hw2 C [] hC hCb hClast
  rw [List.nil_append] at hgroup
  cases w1 with
  | nil =>
    rw [List.nil_append, List.length_nil]
    simp only [branch1Loop, tryGroup]
    exact hgroup
  | cons a w1' =>
    rw [List.length_cons]
    simp only [branch1Loop]
    have hlen : (a :: w1').length = w1'.length + 1 := List.length_cons a w1'
    rw [List.drop_left' hlen]
    simp only [tryGroup]
    rw [hgroup]

theorem dropPrefixChars_self (p r : List Char) : dropPrefixChars p (p ++ r) = some r := by
  induction p with
  | nil => rfl
  | cons c p ih => simp [dropPrefixChars, ih]

/-- A whitespace run before non-whitespace content is exactly what
`takeWhile` collects. -/
theorem takeWhile_ws (w1 C Z : List Char)
    (hw1 : ∀ c ∈ w1, isSpaceChar c = true)
    (hC : C ≠ [])
    (hChead : ∀ d, C.head? = some d → isSpaceChar d = false) :
    (w1 ++ (C ++ Z)).takeWhile isSpaceChar = w1 := by
  induction w1 with
  | nil =>
    cases C with
    | nil => exact absurd rfl hC
    | cons c C' =>
      have := hChead c rfl
      simp [List.takeWhile_cons, this]
  | cons a w1' ih =>
    rw [List.cons_append]
    simp only [List.takeWhile_cons, hw1 a (List.mem_cons_self a w1'), if_true]
    rw [ih fun x hx => hw1 x (List.mem_cons_of_mem _ hx)]

/-- Branch 1 at the opening of a well-formed fenced block returns exactly
the trimmed content. -/
theorem branch1At_fence (w1 C w2 Y : List Char)
    (hw1 : ∀ c ∈ w1, isSpaceChar c = true)
    (hw2 : ∀ c ∈ w2, isSpaceChar c = true)
    (hC : C ≠ [])
    (hCb : ∀ c ∈ C, c ≠ btick)
    (hChead : ∀ d, C.head? = some d → isSpaceChar d = false)
    (hClast : ∀ d, C.getLast? = some d → isSpaceChar d = false) :
    branch1At (fenceOpenTag ++ (w1 ++ (C ++ (w2 ++ (fenceTicks ++ Y))))) = some C := by
  unfold branch1At
  rw [dropPrefixChars_self]
  show branch1Loop (w1 ++ (C ++ (w2 ++ (fenceTicks ++ Y))))
      ((w1 ++ (C ++ (w2 ++ (fenceTicks ++ Y)))).takeWhile isSpaceChar).length = some C
  rw [takeWhile_ws w1 C (w2 ++ (fenceTicks ++ Y)) hw1 hC hChead]
  exact branch1Loop_fence w1 C w2 Y hw2 hC hCb hClast

/-! ### Claim theorems: the bridge -/

/-- C1: a POST whose body lacks an `image` value or whose `image` is the
empty string yields status 400 with body `{ "error": "No image provided" }`;
the response is the same for every possible behaviour of the external model
call, i.e. the external call is not attempted. -/
theorem c1_missing_image_rejected (image : Option String) (call : ModelCall)
    (h : image = none ∨ image = some "") :
    POST (.body image) call = .json 400 noImageBody := by
  rcases h with rfl | rfl <;> rfl

/-- Witness for C1 at a concrete input: the empty-string image. -/
theorem c1_missing_image_rejected_witness :
    ((none : Option String) = none ∨ (none : Option String) = some "") ∧
    POST (.body none) (.success (some "unused")) = .json 400 noImageBody :=
  ⟨Or.inl rfl, c1_missing_image_rejected none (.success (some "unused")) (Or.inl rfl)⟩

/-- The model reply refuting C2 as stated: an opening brace occurs before
the fenced block. -/
def fencePreemptedText : String := "\x7bz ```json\n\x7b\"a\":1\x7d\n```"

/-- C2 (counterexample to the claim as stated): this reply contains a fenced
JSON block with contents `\x7b"a":1\x7d`, yet the extraction does not select
those contents — the leftmost regex match is the greedy brace branch, which
starts at the brace before the fence. -/
theorem c2_fence_not_preferred :
    hasFenceStr fencePreemptedText = true ∧
    extractJsonString fencePreemptedText = "\x7bz ```json\n\x7b\"a\":1\x7d" ∧
    extractJsonString fencePreemptedText ≠ "\x7b\"a\":1\x7d" :=
  ⟨rfl, rfl, by decide⟩

/-- C2 (amended): for every model reply text containing a fenced JSON block,
if no backtick and no opening brace occurs before the fence, the extraction
selects exactly the fenced block's contents (trimmed of the whitespace
absorbed by the fence pattern). -/
theorem c2_fenced_block_selected (t : String) (pre w1 C w2 post : List Char)
    (ht : t.toList = pre ++ (fenceOpenTag ++ (w1 ++ (C ++ (w2 ++ (fenceTicks ++ post))))))
    (hpre : ∀ c ∈ pre, c ≠ btick ∧ c ≠ lbrace)
    (hw1 : ∀ c ∈ w1, isSpaceChar c = true)
    (hw2 : ∀ c ∈ w2, isSpaceChar c = true)
    (hC : C ≠ [])
    (hCb : ∀ c ∈ C, c ≠ btick)
    (hChead : ∀ d, C.head? = some d → isSpaceChar d = false)
    (hClast : ∀ d, C.getLast? = some d → isSpaceChar d = false) :
    extractJsonString t = String.mk C := by
  unfold extractJsonString extractJsonList
  rw [ht, scanMatch_skip pre _ hpre]
  have hb1 := branch1At_fence w1 C w2 post hw1 hw2 hC hCb hChead hClast
  have hscan : scanMatch (fenceOpenTag ++ (w1 ++ (C ++ (w2 ++ (fenceTicks ++ post))))) =
      some C := by
    have e : fenceOpenTag ++ (w1 ++ (C ++ (w2 ++ (fenceTicks ++ post)))) =
        btick :: ([btick, btick, 'j', 's', 'o', 'n'] ++
          (w1 ++ (C ++ (w2 ++ (fenceTicks ++ post))))) := rfl
    rw [e, scanMatch_cons, ← e, hb1]
  rw [hscan]

/-- Witness for C2 (amended) at a concrete reply with a fenced block and no
brace or backtick before it. -/
theorem c2_fenced_block_selected_witness :
    extractJsonString "x ```json\n\x7b\"a\":1\x7d\n``` tail" = "\x7b\"a\":1\x7d" :=
  c2_fenced_block_selected "x ```json\n\x7b\"a\":1\x7d\n``` tail"
    ("x ".toList) ("\n".toList) ("\x7b\"a\":1\x7d".toList) ("\n".toList) (" tail".toList)
    (by decide) (by decide) (by decide) (by decide) (by decide) (by decide)
    (by intro d hd; cases hd; decide) (by intro d hd; cases hd; decide)

/-- The model reply refuting C3 as stated: two top-level brace spans. -/
def twoSpanText : String := "a \x7b\"x\":1\x7d b \x7b\"y\":2\x7d"

/-- C3 (counterexample to the claim as stated): no fenced block, two
top-level brace spans; the first top-level span (per the spec's words) is
the first object, but the extraction selects the greedy span from the first
opening brace to the last closing brace of the text. -/
theorem c3_not_first_span :
    hasFenceStr twoSpanText = false ∧
    specFirstTopLevelSpan twoSpanText = some "\x7b\"x\":1\x7d" ∧
    extractJsonString twoSpanText = "\x7b\"x\":1\x7d b \x7b\"y\":2\x7d" ∧
    extractJsonString twoSpanText ≠ "\x7b\"x\":1\x7d" :=
  ⟨rfl, rfl, rfl, by decide⟩

/-- C3 (amended): for every model reply text with no fenced JSON block whose
first opening brace is later closed (with at least one character in
between), the extraction selects the span from the first opening brace to
the last closing brace of the text, and that whole span is what is parsed
as JSON. -/
theorem c3_first_to_last_brace (t : String) (pre mid post : List Char)
    (ht : t.toList = pre ++ (lbrace :: (mid ++ (rbrace :: post))))
    (hfence : hasFenceStr t = false)
    (hpre : ∀ c ∈ pre, c ≠ lbrace)
    (hmid : mid ≠ [])
    (hpost : ∀ c ∈ post, c ≠ rbrace) :
    extractJsonString t = String.mk (lbrace :: (mid ++ [rbrace])) := by
  unfold extractJsonString extractJsonList
  have hf : hasFenceList (pre ++ (lbrace :: (mid ++ (rbrace :: post)))) = false := by
    rw [← ht]; exact hfence
  rw [ht, scanMatch_skip_nofence pre _ hf hpre]
  rw [scanMatch_cons, branch1At_none_of_head _ _ (by decide),
    branch2At_greedy mid post hmid hpost]

/-- Witness for C3 (amended) at a concrete reply with a single brace span. -/
theorem c3_first_to_last_brace_witness :
    extractJsonString "a \x7bb\x7d" = "\x7bb\x7d" :=
  c3_first_to_last_brace "a \x7bb\x7d" ("a ".toList) (['b']) ([])
    (by decide) (by decide) (by decide) (by decide) (by decide)

/-- C4 (amended): when the selected candidate — the fenced/brace span if the
regex matched, otherwise the whole reply text — fails to parse as JSON, the
bridge returns 500 with `error: "Failed to parse analysis response"` and
`raw` equal to the original model text, unmodified. -/
theorem c4_parse_failure_surfaces_raw (img text : String)
    (h1 : img ≠ "") (h2 : text ≠ "")
    (hp : parseJson (extractJsonString text) = none) :
    POST (.body (some img)) (.success (some text)) = .json 500 (parseFailBody text) := by
  simp [POST, h1, h2, hp]

/-- Witness for C4 (amended): the spec's bare-text example. -/
theorem c4_parse_failure_surfaces_raw_witness :
    POST (.body (some "data:image/png;base64,AA")) (.success (some "Sorry, I cannot help with that.")) =
      .json 500 (parseFailBody "Sorry, I cannot help with that.") :=
  c4_parse_failure_surfaces_raw _ _ (by decide) (by decide) (by rfl)

/-- C4 (counterexample to the claim as stated): for the reply text `42`, no
candidate JSON is found by the regex, yet the bridge does not return 500 — it
parses the whole text, which succeeds, and returns 200 with `42`. -/
theorem c4_no_candidate_but_200 :
    scanMatch ("42".toList) = none ∧
    POST (.body (some "i")) (.success (some "42")) = .json 200 (Json.num "42") :=
  ⟨rfl, rfl⟩

/-- C5: whenever the selected candidate parses successfully as JSON, the
bridge returns 200 with exactly the parsed value — for any JSON value `v`,
with no structural validation of its fields. -/
theorem c5_parsed_value_passthrough (img text : String) (v : Json)
    (h1 : img ≠ "") (h2 : text ≠ "")
    (hp : parseJson (extractJsonString text) = some v) :
    POST (.body (some img)) (.success (some text)) = .json 200 v := by
  simp [POST, h1, h2, hp]

/-- The model reply of the spec's fenced-JSON example. -/
def appleText : String :=
  "```json\n\x7b\"foodName\":\"Apple\",\"calories\":95,\"nutrition\":\x7b\"carbs\":25,\"protein\":0,\"fat\":0\x7d,\"healthiness\":\"good\",\"suggestions\":[\"Eat the skin for fiber\"]\x7d\n```"

/-- The parsed object of the spec's fenced-JSON example. -/
def appleAnalysis : Json :=
  Json.obj
    [("foodName", Json.str "Apple"),
     ("calories", Json.num "95"),
     ("nutrition", Json.obj
        [("carbs", Json.num "25"), ("protein", Json.num "0"), ("fat", Json.num "0")]),
     ("healthiness", Json.str "good"),
     ("suggestions", Json.arr [Json.str "Eat the skin for fiber"])]

/-- Witness for C5: the spec's example reply is returned verbatim as the 200
body. -/
theorem c5_parsed_value_passthrough_witness :
    POST (.body (some "data:image/jpeg;base64,AAAA")) (.success (some appleText)) =
      .json 200 appleAnalysis :=
  c5_parsed_value_passthrough _ _ appleAnalysis (by decide) (by decide) (by rfl)

/-- C6: every bridge failure other than a missing image and a JSON-parse
failure — the external call throwing, the model reply having no text
content (absent or empty), or the request body failing to parse — yields
500 with `error: "Failed to analyze food image"` and `details` carrying the
underlying error message. -/
theorem c6_other_failures_500_details (img msg : String) (h : img ≠ "") :
    POST (.body (some img)) (.failure msg) = .json 500 (analyzeFailBody msg) ∧
    POST (.body (some img)) (.success none) =
      .json 500 (analyzeFailBody "No analysis received from GPT") ∧
    POST (.body (some img)) (.success (some "")) =
      .json 500 (analyzeFailBody "No analysis received from GPT") ∧
    (∀ (m : String) (call : ModelCall),
      POST (.invalidBody m) call = .json 500 (analyzeFailBody m)) := by
  refine ⟨by simp [POST, h], by simp [POST, h], by simp [POST, h], fun m call => rfl⟩

/-- Witness for C6 at concrete inputs. -/
theorem c6_other_failures_500_details_witness :
    POST (.body (some "i")) (.failure "boom") = .json 500 (analyzeFailBody "boom") ∧
    POST (.body (some "i")) (.success none) =
      .json 500 (analyzeFailBody "No analysis received from GPT") :=
  ⟨(c6_other_failures_500_details "i" "boom" (by decide)).1,
   (c6_other_failures_500_details "i" "boom" (by decide)).2.1⟩

/-! ### Claim theorems: the client -/

/-- C7: file selection rejects a non-`image/` MIME type with the
invalid-type error (no state other than the error changes, so no analysis
request can be made from it); otherwise a size above 5 MiB is rejected with
the too-large error; otherwise selection succeeds and the captured image is
the non-null decoded data URI. -/
theorem c7_upload_validation (f : ImageFile) (st : ClientState) :
    (strStartsWith "image/" f.type = false →
      handleImageUpload (some f) st = { st with error := some "Please select an image file" }) ∧
    (strStartsWith "image/" f.type = true → f.size > 5 * 1024 * 1024 →
      handleImageUpload (some f) st = { st with error := some "Image size should be less than 5MB" }) ∧
    (strStartsWith "image/" f.type = true → f.size ≤ 5 * 1024 * 1024 →
      handleImageUpload (some f) st =
        { st with selectedImage := some f.dataUri, analysisResult := none, error := none } ∧
      (handleImageUpload (some f) st).selectedImage ≠ none) := by
  refine ⟨fun ht => ?_, fun ht hs => ?_, fun ht hs => ?_⟩
  · simp [handleImageUpload, ht]
  · simp [handleImageUpload, ht, hs]
  · have hs' : ¬ (f.size > 5 * 1024 * 1024) := by omega
    refine ⟨by simp [handleImageUpload, ht, hs'], by simp [handleImageUpload, ht, hs']⟩

/-- A prior client state with a displayed result, used by witnesses. -/
def stShown : ClientState :=
  { selectedImage := some "data:image/png;base64,OLD"
    analysisResult := some (Json.obj [("foodName", Json.str "Old")])
    isAnalyzing := false
    error := some "old error"
    showCamera := false }

/-- Witness for C7 at three concrete files. -/
theorem c7_upload_validation_witness :
    handleImageUpload (some ⟨"text/plain", 10, "u1"⟩) stShown =
      { stShown with error := some "Please select an image file" } ∧
    handleImageUpload (some ⟨"image/png", 5 * 1024 * 1024 + 1, "u2"⟩) stShown =
      { stShown with error := some "Image size should be less than 5MB" } ∧
    handleImageUpload (some ⟨"image/png", 5 * 1024 * 1024, "u3"⟩) stShown =
      { stShown with selectedImage := some "u3", analysisResult := none, error := none } :=
  ⟨(c7_upload_validation ⟨"text/plain", 10, "u1"⟩ stShown).1 (by decide),
   (c7_upload_validation ⟨"image/png", 5 * 1024 * 1024 + 1, "u2"⟩ stShown).2.1 (by decide) (by decide),
   ((c7_upload_validation ⟨"image/png", 5 * 1024 * 1024, "u3"⟩ stShown).2.2 (by decide) (by decide)).1⟩

/-- C8: every successful capture step — a file selection completing its
decode, or a camera capture producing a frame — that sets a new captured
image clears the previous analysis result and error in the same step. -/
theorem c8_new_capture_clears_result (f : ImageFile) (st st' : ClientState) (src : String)
    (ht : strStartsWith "image/" f.type = true) (hs : f.size ≤ 5 * 1024 * 1024) :
    (handleImageUpload (some f) st).selectedImage = some f.dataUri ∧
    (handleImageUpload (some f) st).analysisResult = none ∧
    (handleImageUpload (some f) st).error = none ∧
    (captureImage (some src) st').selectedImage = some src ∧
    (captureImage (some src) st').analysisResult = none ∧
    (captureImage (some src) st').error = none := by
  have hs' : ¬ (f.size > 5 * 1024 * 1024) := by omega
  refine ⟨?_, ?_, ?_, rfl, rfl, rfl⟩ <;> simp [handleImageUpload, ht, hs']

/-- Witness for C8: an upload and a camera capture over a state showing a
stale result. -/
theorem c8_new_capture_clears_result_witness :
    (handleImageUpload (some ⟨"image/jpeg", 42, "new"⟩) stShown).analysisResult = none ∧
    (captureImage (some "shot") stShown).analysisResult = none :=
  ⟨(c8_new_capture_clears_result ⟨"image/jpeg", 42, "new"⟩ stShown stShown "shot"
      (by decide) (by decide)).2.1,
   (c8_new_capture_clears_result ⟨"image/jpeg", 42, "new"⟩ stShown stShown "shot"
      (by decide) (by decide)).2.2.2.2.1⟩

/-- C9: whenever the analyzing flag is set, the analyze button is disabled
and a click issues no request and changes nothing; and the flag is cleared
by the completion handler on every outcome, success or failure. -/
theorem c9_analyzing_flag_guards :
    (∀ st : ClientState, st.isAnalyzing = true →
      analyzeButtonDisabled st = true ∧ clickAnalyze st = (st, false)) ∧
    (∀ (st : ClientState) (o : FetchOutcome),
      (completeAnalyze st o).isAnalyzing = false) := by
  constructor
  · intro st h
    exact ⟨h, by simp [clickAnalyze, analyzeButtonDisabled, h]⟩
  · intro st o
    cases o with
    | ok v => rfl
    | httpJsonError oe =>
      cases oe with
      | none => rfl
      | some e =>
        simp only [completeAnalyze]
        split <;> rfl
    | httpNonJsonError => rfl
    | networkError m => rfl

/-- A client state with an analysis in flight, used by the C9 witness. -/
def stBusy : ClientState :=
  { selectedImage := some "img", analysisResult := none, isAnalyzing := true
    error := none, showCamera := false }

/-- Witness for C9: the in-flight state cannot issue a second request, and
both a success and a failure completion clear the flag. -/
theorem c9_analyzing_flag_guards_witness :
    (analyzeButtonDisabled stBusy = true ∧ clickAnalyze stBusy = (stBusy, false)) ∧
    (completeAnalyze stBusy (.ok Json.null)).isAnalyzing = false ∧
    (completeAnalyze stBusy (.networkError "down")).isAnalyzing = false :=
  ⟨c9_analyzing_flag_guards.1 stBusy rfl,
   c9_analyzing_flag_guards.2 stBusy (.ok Json.null),
   c9_analyzing_flag_guards.2 stBusy (.networkError "down")⟩

/-- C10: a file selection that fails pre-flight validation (wrong MIME type,
or image type but over 5 MiB) sets only the error message: the selected
image, the analysis result, the analyzing flag and the camera flag are all
left unchanged. -/
theorem c10_failed_validation_preserves_state (f : ImageFile) (st : ClientState)
    (h : strStartsWith "image/" f.type = false ∨
         (strStartsWith "image/" f.type = true ∧ f.size > 5 * 1024 * 1024)) :
    (handleImageUpload (some f) st).selectedImage = st.selectedImage ∧
    (handleImageUpload (some f) st).analysisResult = st.analysisResult ∧
    (handleImageUpload (some f) st).isAnalyzing = st.isAnalyzing ∧
    (handleImageUpload (some f) st).showCamera = st.showCamera ∧
    ((handleImageUpload (some f) st).error = some "Please select an image file" ∨
     (handleImageUpload (some f) st).error = some "Image size should be less than 5MB") := by
  rcases h with ht | ⟨ht, hs⟩
  · refine ⟨?_, ?_, ?_, ?_, Or.inl ?_⟩ <;> simp [handleImageUpload, ht]
  · refine ⟨?_, ?_, ?_, ?_, Or.inr ?_⟩ <;> simp [handleImageUpload, ht, hs]

/-- Witness for C10: an oversized image file over a state with a shown
result leaves the image and result in place. -/
theorem c10_failed_validation_preserves_state_witness :
    (handleImageUpload (some ⟨"image/gif", 6 * 1024 * 1024, "big"⟩) stShown).selectedImage =
      stShown.selectedImage ∧
    (handleImageUpload (some ⟨"image/gif", 6 * 1024 * 1024, "big"⟩) stShown).analysisResult =
      stShown.analysisResult :=
  ⟨(c10_failed_validation_preserves_state ⟨"image/gif", 6 * 1024 * 1024, "big"⟩ stShown
      (Or.inr ⟨by decide, by decide⟩)).1,
   (c10_failed_validation_preserves_state ⟨"image/gif", 6 * 1024 * 1024, "big"⟩ stShown
      (Or.inr ⟨by decide, by decide⟩)).2.1⟩

end FoodInsight
